import Mathlib

set_option maxRecDepth 8000

/-!
Shallow embedding of `src/simulator.py`, a 5-stage MIPS pipeline simulator.

Conventions of the embedding:
* Python dictionaries representing instruction records become the `Instr`
  structure; a key that is absent (or present with value `None`, which the
  source never distinguishes from an absent key) is `none`.
* Python `None` latches become `Option` values.
* A raised Python exception (`KeyError`, `IndexError`, `ValueError` from
  `int(...)` or tuple unpacking) is modelled as `Option.none` propagating
  through the function, so every fallible operation returns an `Option`.
* Python integers are `Int`; list indices follow Python semantics including
  negative indexing (`pyIndex`), and `//` is floor division (`Int.fdiv`).
* In the source, the Memory stage writes the very dictionary object that is
  still referenced by the `EX_MEM` latch into `MEM_WB`; mutation through one
  alias is visible through the other.  The embedding reproduces the visible
  effect of this aliasing by updating both latch fields with the same record.
* The per-cycle log is modelled only through the two counters `log_stalls`
  (number of "Data hazard detected" lines appended) and `log_fetches`
  (number of "Fetched instruction" lines appended); the log text itself has
  no effect on the machine state.
-/

/-- Python ASCII whitespace characters, as used by `str.split()` with no
separator argument. -/
def isPySpace (c : Char) : Bool :=
  c = ' ' || c = '\t' || c = '\n' || c = '\r' || c = '\x0b' || c = '\x0c'

/-- Split a character list at every character satisfying `p`, keeping empty
pieces, mirroring Python `str.split(sep)` which keeps empty fields. -/
def splitChars (p : Char → Bool) : List Char → List (List Char)
  | [] => [[]]
  | c :: cs =>
    if p c then [] :: splitChars p cs
    else
      match splitChars p cs with
      | [] => [[c]]
      | h :: t => (c :: h) :: t

/-- Accumulate the value of a digit string as Python `int` does: digits with
single underscores allowed between digits.  `lastU` records whether the
previous position was an underscore (or the start of the string, where an
underscore or the end of input is also illegal). -/
def pyIntDigitsAux : List Char → Nat → Bool → Option Nat
  | [], acc, lastU => if lastU then none else some acc
  | c :: cs, acc, lastU =>
    if c.isDigit then pyIntDigitsAux cs (10 * acc + (c.toNat - 48)) false
    else if c = '_' then (if lastU then none else pyIntDigitsAux cs acc true)
    else none

/-- Python `int(string)` on a whitespace-free token: an optional sign followed
by a nonempty digit string; `none` models the raised `ValueError`. -/
def pyIntChars : List Char → Option Int
  | '+' :: cs => (pyIntDigitsAux cs 0 true).map fun n => (n : Int)
  | '-' :: cs => (pyIntDigitsAux cs 0 true).map fun n => -(n : Int)
  | cs => (pyIntDigitsAux cs 0 true).map fun n => (n : Int)

/-- An instruction record: the dictionary built by `parse_instruction` and
augmented by the Execute and Memory stages of the source. -/
structure Instr where
  opcode : String
  rd : Option Int := none
  rs : Option Int := none
  rt : Option Int := none
  imm : Option Int := none
  result : Option Int := none
  addr : Option Int := none
  val : Option Int := none
deriving DecidableEq, Repr

/-- The no-operation record `NOP = {'opcode': 'nop'}` of the source. -/
def NOP : Instr := { opcode := "nop" }

/-- The R-type mnemonics recognized by `parse_instruction`. -/
def mnemonicsR : List String := ["add", "sub", "and", "or", "slt"]

/-- The I-type arithmetic mnemonics recognized by `parse_instruction`. -/
def mnemonicsI : List String := ["addi", "slti"]

/-- The memory mnemonics recognized by `parse_instruction`. -/
def mnemonicsM : List String := ["lw", "sw"]

/-- `line.replace(",", "").split()` of the source: commas removed, then split
on whitespace with empty tokens dropped. -/
def parseTokens (line : String) : List (List Char) :=
  (splitChars isPySpace (line.data.filter fun c => c ≠ ',')).filter fun t => t ≠ []

/-- `parse_instruction` of the source: turn one text line into an instruction
record; `none` models a raised exception (missing tokens → `IndexError`,
failed `int(...)` → `ValueError`, a memory operand whose
`tokens[2].replace(')','').split('(')` does not have exactly two pieces →
`ValueError` from tuple unpacking). -/
def parse_instruction (line : String) : Option Instr :=
  match parseTokens line with
  | [] => some NOP
  | t0 :: rest =>
    let opcode := String.mk (t0.map Char.toLower)
    if opcode ∈ mnemonicsR then
      match rest with
      | t1 :: t2 :: t3 :: _ =>
        (pyIntChars (t1.drop 1)).bind fun rd =>
        (pyIntChars (t2.drop 1)).bind fun rs =>
        (pyIntChars (t3.drop 1)).map fun rt =>
          { opcode := opcode, rd := some rd, rs := some rs, rt := some rt }
      | _ => none
    else if opcode ∈ mnemonicsI then
      match rest with
      | t1 :: t2 :: t3 :: _ =>
        (pyIntChars (t1.drop 1)).bind fun rt =>
        (pyIntChars (t2.drop 1)).bind fun rs =>
        (pyIntChars t3).map fun imm =>
          { opcode := opcode, rt := some rt, rs := some rs, imm := some imm }
      | _ => none
    else if opcode ∈ mnemonicsM then
      match rest with
      | t1 :: t2 :: _ =>
        (pyIntChars (t1.drop 1)).bind fun rt =>
        (match splitChars (fun c => c = '(') (t2.filter fun c => c ≠ ')') with
         | [offTok, baseTok] =>
           (pyIntChars offTok).bind fun imm =>
           (pyIntChars (baseTok.drop 1)).map fun rs =>
             { opcode := opcode, rt := some rt, rs := some rs, imm := some imm }
         | _ => none)
      | _ => none
    else some NOP

/-- `detect_load_use_hazard` of the source: true when the record in `ID_EX`
is a `lw` whose `rt` is present and read (as `rs` or `rt`) by the newly
decoded instruction. -/
def detect_load_use_hazard (ID_instr : Instr) (EX_instr : Option Instr) : Bool :=
  match EX_instr with
  | some e =>
    if e.opcode = "lw" then
      match e.rt with
      | some rt => ID_instr.rs = some rt || ID_instr.rt = some rt
      | none => false
    else false
  | none => false

/-- A forwarding source chosen by `detect_forwarding_sources`: the register
file, the `EX_MEM` latch, or the `MEM_WB` latch. -/
inductive Fwd where
  | REG
  | EX
  | MEM
deriving DecidableEq, Repr

/-- `detect_forwarding_sources` of the source, with the two latches it reads
from the global `pipeline` passed explicitly. -/
def detect_forwarding_sources (ID_instr : Instr) (ex_mem mem_wb : Option Instr) :
    Fwd × Fwd :=
  let src1 := ID_instr.rs
  let src2 := ID_instr.rt
  let fAB : Fwd × Fwd :=
    match ex_mem with
    | some r =>
      match r.rd with
      | some d =>
        if d ≠ 0 then
          ((if src1 = some d then Fwd.EX else Fwd.REG),
           (if src2 = some d then Fwd.EX else Fwd.REG))
        else (Fwd.REG, Fwd.REG)
      | none => (Fwd.REG, Fwd.REG)
    | none => (Fwd.REG, Fwd.REG)
  match mem_wb with
  | some r =>
    match r.rd with
    | some d =>
      if d ≠ 0 then
        ((if fAB.1 = Fwd.REG ∧ src1 = some d then Fwd.MEM else fAB.1),
         (if fAB.2 = Fwd.REG ∧ src2 = some d then Fwd.MEM else fAB.2))
      else fAB
    | none => fAB
  | none => fAB

/-- Resolve a Python list index the way CPython does: nonnegative indices are
direct, negative indices count from the end, anything else is an
`IndexError` (`none`). -/
def pyIndex (len : Nat) (i : Int) : Option Nat :=
  if 0 ≤ i ∧ i < (len : Int) then some i.toNat
  else if -(len : Int) ≤ i ∧ i < 0 then some ((len : Int) + i).toNat
  else none

/-- Python `l[i]` on an integer list. -/
def pyGet (l : List Int) (i : Int) : Option Int :=
  (pyIndex l.length i).bind fun n => l.get? n

/-- Python `l[i] = v` on an integer list. -/
def pySet (l : List Int) (i : Int) (v : Int) : Option (List Int) :=
  (pyIndex l.length i).map fun n => l.set n v

/-- The mutable simulator state: register file, data memory, instruction
memory, program counter, counters, the four inter-stage latches, and the two
counters embedding the cycle log (stall lines and fetch lines). -/
structure SimState where
  registers : List Int
  data_memory : List Int
  instruction_memory : List String
  pc : Nat
  cycle : Nat
  instr_executed : Nat
  IF_ID : Option String
  ID_EX : Option Instr
  EX_MEM : Option Instr
  MEM_WB : Option Instr
  log_stalls : Nat
  log_fetches : Nat
deriving DecidableEq, Repr

/-- The state produced by `reset()` followed by loading `prog` into
`instruction_memory`. -/
def initState (prog : List String) : SimState :=
  { registers := List.replicate 32 0
    data_memory := List.replicate 1024 0
    instruction_memory := prog
    pc := 0
    cycle := 0
    instr_executed := 0
    IF_ID := none
    ID_EX := none
    EX_MEM := none
    MEM_WB := none
    log_stalls := 0
    log_fetches := 0 }

/-- `apply_forwarding` of the source: read both operands from the register
file first (both reads can raise), then override each with the latch result
chosen by the forwarding selector (`pipeline['EX_MEM']['result']` /
`pipeline['MEM_WB']['result']`, where a `None` latch or a missing `result`
key raises). -/
def apply_forwarding (s : SimState) (instr : Instr) (fA fB : Fwd) :
    Option (Int × Int) :=
  (match instr.rs with
   | some r => pyGet s.registers r
   | none => some 0).bind fun rs0 =>
  (match instr.rt with
   | some r => pyGet s.registers r
   | none => some 0).bind fun rt0 =>
  (match fA with
   | Fwd.EX => s.EX_MEM.bind fun r => r.result
   | Fwd.MEM => s.MEM_WB.bind fun r => r.result
   | Fwd.REG => some rs0).bind fun rsv =>
  (match fB with
   | Fwd.EX => s.EX_MEM.bind fun r => r.result
   | Fwd.MEM => s.MEM_WB.bind fun r => r.result
   | Fwd.REG => some rt0).map fun rtv => (rsv, rtv)

/-- The Write-Back step of `pipeline_step`: a non-`nop` record in `MEM_WB`
retires; if it carries a destination register its `result` is written to the
register file (also when the destination is register 0). -/
def wb_stage (s : SimState) : Option SimState :=
  match s.MEM_WB with
  | none => some s
  | some wb =>
    if wb.opcode = "nop" then some s
    else
      match wb.rd with
      | none => some { s with instr_executed := s.instr_executed + 1 }
      | some rd =>
        wb.result.bind fun res =>
        (pySet s.registers rd res).map fun regs =>
          { s with registers := regs, instr_executed := s.instr_executed + 1 }

/-- The Memory step of `pipeline_step`: a `lw` record reads
`data_memory[addr // 4]` into its `result`, a `sw` record writes its `val`
there.  The record is moved into `MEM_WB`; since the source moves the very
dictionary object still held by `EX_MEM`, both latches end up holding the
same record. -/
def mem_stage (s : SimState) : Option SimState :=
  match s.EX_MEM with
  | none => some { s with MEM_WB := none }
  | some m =>
    if m.opcode = "lw" then
      m.addr.bind fun a =>
      (pyGet s.data_memory (Int.fdiv a 4)).map fun v =>
        let m2 := { m with result := some v }
        { s with EX_MEM := some m2, MEM_WB := some m2 }
    else if m.opcode = "sw" then
      m.addr.bind fun a =>
      m.val.bind fun v =>
      (pySet s.data_memory (Int.fdiv a 4) v).map fun dm =>
        { s with data_memory := dm, MEM_WB := some m }
    else some { s with MEM_WB := some m }

/-- The opcode-specific computation of the Execute step (`KeyError` on a
missing `imm` is `none`; an opcode outside the nine recognized ones leaves
the record unchanged). -/
def execOp (ex : Instr) (rs_val rt_val : Int) : Option Instr :=
  if ex.opcode = "add" then some { ex with result := some (rs_val + rt_val) }
  else if ex.opcode = "sub" then some { ex with result := some (rs_val - rt_val) }
  else if ex.opcode = "and" then some { ex with result := some (Int.land rs_val rt_val) }
  else if ex.opcode = "or" then some { ex with result := some (Int.lor rs_val rt_val) }
  else if ex.opcode = "slt" then
    some { ex with result := some (if rs_val < rt_val then 1 else 0) }
  else if ex.opcode = "addi" then
    ex.imm.map fun i => { ex with result := some (rs_val + i) }
  else if ex.opcode = "slti" then
    ex.imm.map fun i => { ex with result := some (if rs_val < i then 1 else 0) }
  else if ex.opcode = "lw" then
    ex.imm.map fun i => { ex with addr := some (rs_val + i) }
  else if ex.opcode = "sw" then
    ex.imm.map fun i => { ex with addr := some (rs_val + i), val := some rt_val }
  else some ex

/-- The Execute step of `pipeline_step`: resolve forwarding, compute the
operand values, run the opcode-specific computation, set `rd` from `rt` for
`addi`/`slti`/`lw`, and move the record into `EX_MEM`.  The source mutates
the dictionary still referenced by `ID_EX`, so `ID_EX` is updated to the
same record. -/
def ex_stage (s : SimState) : Option SimState :=
  match s.ID_EX with
  | none => some { s with EX_MEM := none }
  | some ex =>
    let fAB := detect_forwarding_sources ex s.EX_MEM s.MEM_WB
    (apply_forwarding s ex fAB.1 fAB.2).bind fun rv =>
    (execOp ex rv.1 rv.2).map fun ex1 =>
      let ex2 :=
        if ex1.opcode ∈ mnemonicsI ∨ ex1.opcode = "lw" then { ex1 with rd := ex1.rt }
        else ex1
      { s with ID_EX := some ex2, EX_MEM := some ex2 }

/-- Python truthiness of the `IF_ID` latch: `None` and the empty string are
falsy. -/
def truthy (o : Option String) : Bool :=
  match o with
  | none => false
  | some t => t ≠ ""

/-- The Fetch step of `pipeline_step`: when the program counter is in range,
move the instruction text into `IF_ID` and advance; otherwise `IF_ID`
becomes empty.  Each performed fetch appends a "Fetched instruction" log
line, counted by `log_fetches`. -/
def fetch_stage (s : SimState) : SimState :=
  if s.pc < s.instruction_memory.length then
    { s with
      IF_ID := some (s.instruction_memory.getD s.pc "")
      pc := s.pc + 1
      log_fetches := s.log_fetches + 1 }
  else { s with IF_ID := none }

/-- The Decode step of `pipeline_step`, followed by Fetch on a non-stall
cycle: decode the text in `IF_ID`; on a load-use hazard clear `ID_EX`,
`EX_MEM` and `MEM_WB`, count the stall log line, and return early without
fetching; otherwise move the decoded record into `ID_EX` and fetch. -/
def decode_fetch (s : SimState) : Option SimState :=
  if truthy s.IF_ID then
    (parse_instruction (s.IF_ID.getD "")).bind fun instr =>
      if detect_load_use_hazard instr s.ID_EX then
        some { s with
          ID_EX := none
          EX_MEM := none
          MEM_WB := none
          log_stalls := s.log_stalls + 1 }
      else some (fetch_stage { s with ID_EX := some instr })
  else some (fetch_stage { s with ID_EX := none })

/-- `pipeline_step` of the source: one cycle, advancing the stages in the
order Write-Back, Memory, Execute, Decode, Fetch; `none` models a raised
exception. -/
def pipeline_step (s : SimState) : Option SimState :=
  (wb_stage { s with cycle := s.cycle + 1 }).bind fun s1 =>
  (mem_stage s1).bind fun s2 =>
  (ex_stage s2).bind fun s3 =>
  decode_fetch s3

/-- Run `n` calls of `pipeline_step` from `s`; `none` as soon as one raises. -/
def runSteps : Nat → SimState → Option SimState
  | 0, s => some s
  | n + 1, s => (pipeline_step s).bind (runSteps n)

/-- The five-instruction reference program of
`TestSimulator.test_program_execution`, verbatim. -/
def refProg : List String :=
  ["addi $1, $0, 5",
   "addi $2, $0, 10",
   "add  $3, $1, $2",
   "sw   $3, 0($0)",
   "lw   $4, 0($0)"]

/-- A two-instruction program whose second instruction immediately consumes
the register loaded by the first: it stalls on the third cycle. -/
def c7prog : List String := ["lw $1, 0($0)", "add $2, $1, $1"]

/-- The state after two cycles of `c7prog` (the cycle about to stall). -/
def c7s : SimState := (runSteps 2 (initState c7prog)).getD (initState c7prog)

/-- The state after the stall cycle of `c7prog`. -/
def c7t : SimState := (pipeline_step c7s).getD c7s

/-- A one-instruction program used to witness C8. -/
def c8prog : List String := ["addi $1, $0, 5"]

/-- The state after four cycles of `c8prog`: the `addi` sits in MEM/WB. -/
def c8s : SimState := (runSteps 4 (initState c8prog)).getD (initState c8prog)

/-- The state after the retiring fifth cycle of `c8prog`. -/
def c8t : SimState := (pipeline_step c8s).getD c8s

/-- The concrete state after 20 cycles of the reference program. -/
def s20ref : SimState := (runSteps 20 (initState refProg)).getD (initState refProg)

/-- A program with a load immediately followed by a dependent instruction,
with a memory value (42) distinguishable from the stale register value (0). -/
def c1prog : List String :=
  ["addi $1, $0, 42", "sw $1, 0($0)", "lw $2, 0($0)", "add $3, $2, $2"]

/-- A program whose only instruction targets register 0. -/
def c2prog : List String := ["addi $0, $0, 5"]

/-- The load-use hazard condition as the claim states it: the Execute-stage
record is a load whose destination register is defined AND non-zero and is
read by the decoded instruction. -/
def loadUseHazardClaim (ID_instr : Instr) (EX_instr : Option Instr) : Prop :=
  ∃ e rt, EX_instr = some e ∧ e.opcode = "lw" ∧ e.rt = some rt ∧ rt ≠ 0 ∧
    (ID_instr.rs = some rt ∨ ID_instr.rt = some rt)

/-- The load-use hazard condition as the code computes it: same, but with no
non-zero requirement on the destination register. -/
def loadUseHazardCode (ID_instr : Instr) (EX_instr : Option Instr) : Prop :=
  ∃ e rt, EX_instr = some e ∧ e.opcode = "lw" ∧ e.rt = some rt ∧
    (ID_instr.rs = some rt ∨ ID_instr.rt = some rt)

/-- A decoded instruction reading register 0 as its first operand. -/
def c4id : Instr := { opcode := "add", rd := some 1, rs := some 0, rt := some 3 }

/-- A load whose destination register is register 0. -/
def c4ex : Instr := { opcode := "lw", rt := some 0, rs := some 1, imm := some 0 }

/-- The per-operand selection performed by `detect_forwarding_sources`:
`detect_forwarding_sources` computes this independently for each operand
register (proved in `detect_forwarding_sources_eq`). -/
def selectSource (src : Option Int) (ex_mem mem_wb : Option Instr) : Fwd :=
  let f1 : Fwd :=
    match ex_mem with
    | some r =>
      match r.rd with
      | some d =>
        if d ≠ 0 then (if src = some d then Fwd.EX else Fwd.REG) else Fwd.REG
      | none => Fwd.REG
    | none => Fwd.REG
  match mem_wb with
  | some r =>
    match r.rd with
    | some d =>
      if d ≠ 0 then (if f1 = Fwd.REG ∧ src = some d then Fwd.MEM else f1) else f1
    | none => f1
  | none => f1

/-- A latch qualifies as forwarding source for an operand register when it
holds a record whose destination register is defined, non-zero, and equal to
the operand's register index. -/
def latchQualifies (latch : Option Instr) (src : Option Int) : Prop :=
  ∃ r d, latch = some r ∧ r.rd = some d ∧ d ≠ 0 ∧ src = some d

/-- The state after four cycles of the reference program (`add` about to
execute with its distance-1 dependency on the second `addi`). -/
def c10s : SimState := (runSteps 4 (initState refProg)).getD (initState refProg)

/-- `c10s` after its Write-Back step. -/
def c10s1 : SimState := (wb_stage c10s).getD c10s

/-- `c10s1` after its Memory step: the state visible to Execute. -/
def c10s2 : SimState := (mem_stage c10s1).getD c10s1

/-- The decoded `add $3, $1, $2` of the reference program. -/
def c10i : Instr := { opcode := "add", rd := some 3, rs := some 1, rt := some 2 }

/-- The unrecognized-mnemonic scenario program of the spec. -/
def fooProg : List String := ["foo $1, $2, $3"]

/-- The concrete state after 5 cycles of `fooProg`: the pipeline has fully
drained. -/
def fooS5 : SimState := (runSteps 5 (initState fooProg)).getD (initState fooProg)

/-- Decompose a successful `pipeline_step` into its four successful stages. -/
lemma pipeline_step_decomp (s s' : SimState) (h : pipeline_step s = some s') :
    ∃ s1 s2 s3, wb_stage { s with cycle := s.cycle + 1 } = some s1 ∧
      mem_stage s1 = some s2 ∧ ex_stage s2 = some s3 ∧ decode_fetch s3 = some s' := by
  unfold pipeline_step at h
  simp only [Option.bind_eq_some] at h
  obtain ⟨s1, h1, s2, h2, s3, h3, h4⟩ := h
  exact ⟨s1, s2, s3, h1, h2, h3, h4⟩

/-- The Write-Back step only touches the register file and the retired
counter. -/
lemma wb_stage_frame (s s1 : SimState) (h : wb_stage s = some s1) :
    s1.data_memory = s.data_memory ∧ s1.instruction_memory = s.instruction_memory ∧
    s1.pc = s.pc ∧ s1.cycle = s.cycle ∧ s1.IF_ID = s.IF_ID ∧ s1.ID_EX = s.ID_EX ∧
    s1.EX_MEM = s.EX_MEM ∧ s1.MEM_WB = s.MEM_WB ∧ s1.log_stalls = s.log_stalls ∧
    s1.log_fetches = s.log_fetches := by
  unfold wb_stage at h
  split at h
  · cases h; simp
  · split at h
    · cases h; simp
    · split at h
      · cases h; simp
      · simp only [Option.bind_eq_some, Option.map_eq_some'] at h
        obtain ⟨res, hres, regs, hregs, hs1⟩ := h
        subst hs1; simp

/-- The Write-Back step increments the retired counter exactly when `MEM_WB`
holds a non-`nop` record, and never by more than one. -/
lemma wb_stage_executed (s s1 : SimState) (h : wb_stage s = some s1) :
    (s1.instr_executed = s.instr_executed + 1 ↔
      ∃ r, s.MEM_WB = some r ∧ r.opcode ≠ "nop") ∧
    (s1.instr_executed = s.instr_executed ∨
      s1.instr_executed = s.instr_executed + 1) := by
  unfold wb_stage at h
  split at h
  · rename_i hM
    cases h
    constructor
    · simp [hM]
    · exact Or.inl rfl
  · rename_i wb hM
    split at h
    · rename_i hop
      cases h
      constructor
      · simp [hM, hop]
      · exact Or.inl rfl
    · rename_i hop
      split at h
      · cases h
        constructor
        · simp only [eq_self_iff_true, true_iff]
          exact ⟨wb, hM, hop⟩
        · exact Or.inr rfl
      · simp only [Option.bind_eq_some, Option.map_eq_some'] at h
        obtain ⟨res, hres, regs, hregs, hs1⟩ := h
        subst hs1
        constructor
        · simp only [eq_self_iff_true, true_iff]
          exact ⟨wb, hM, hop⟩
        · exact Or.inr rfl

/-- The Memory step only touches the data memory and the `EX_MEM`/`MEM_WB`
latches. -/
lemma mem_stage_frame (s s2 : SimState) (h : mem_stage s = some s2) :
    s2.registers = s.registers ∧ s2.instruction_memory = s.instruction_memory ∧
    s2.pc = s.pc ∧ s2.cycle = s.cycle ∧ s2.IF_ID = s.IF_ID ∧ s2.ID_EX = s.ID_EX ∧
    s2.instr_executed = s.instr_executed ∧ s2.log_stalls = s.log_stalls ∧
    s2.log_fetches = s.log_fetches := by
  unfold mem_stage at h
  split at h
  · cases h; simp
  · split at h
    · simp only [Option.bind_eq_some, Option.map_eq_some'] at h
      obtain ⟨a, ha, v, hv, hs2⟩ := h
      subst hs2; simp
    · split at h
      · simp only [Option.bind_eq_some, Option.map_eq_some'] at h
        obtain ⟨a, ha, v, hv, dm, hdm, hs2⟩ := h
        subst hs2; simp
      · cases h; simp

/-- After the Memory step the `EX_MEM` and `MEM_WB` latches hold the same
record (the source moves the very dictionary object from one latch to the
other), or are both empty. -/
lemma mem_stage_latch_eq (s s2 : SimState) (h : mem_stage s = some s2) :
    s2.EX_MEM = s2.MEM_WB := by
  unfold mem_stage at h
  split at h
  · rename_i hM
    cases h; simpa using hM
  · rename_i m hM
    split at h
    · simp only [Option.bind_eq_some, Option.map_eq_some'] at h
      obtain ⟨a, ha, v, hv, hs2⟩ := h
      subst hs2; simp
    · split at h
      · simp only [Option.bind_eq_some, Option.map_eq_some'] at h
        obtain ⟨a, ha, v, hv, dm, hdm, hs2⟩ := h
        subst hs2; simpa using hM
      · cases h; simpa using hM

/-- The Execute step only touches the `ID_EX` and `EX_MEM` latches. -/
lemma ex_stage_frame (s s3 : SimState) (h : ex_stage s = some s3) :
    s3.registers = s.registers ∧ s3.data_memory = s.data_memory ∧
    s3.instruction_memory = s.instruction_memory ∧ s3.pc = s.pc ∧
    s3.cycle = s.cycle ∧ s3.IF_ID = s.IF_ID ∧ s3.MEM_WB = s.MEM_WB ∧
    s3.instr_executed = s.instr_executed ∧ s3.log_stalls = s.log_stalls ∧
    s3.log_fetches = s.log_fetches := by
  unfold ex_stage at h
  split at h
  · cases h; simp
  · simp only [Option.bind_eq_some, Option.map_eq_some'] at h
    obtain ⟨rv, hrv, ex1, hex1, hs3⟩ := h
    subst hs3; simp

/-- The Decode/Fetch step either stalls (three downstream latches cleared,
`IF_ID` and the program counter untouched, no fetch, one stall logged) or
does not stall (no stall logged, and the program counter and fetch count
advance together exactly when the counter was in range). -/
lemma decode_fetch_cases (s s4 : SimState) (h : decode_fetch s = some s4) :
    (s4.log_stalls = s.log_stalls + 1 ∧ s4.ID_EX = none ∧ s4.EX_MEM = none ∧
      s4.MEM_WB = none ∧ s4.IF_ID = s.IF_ID ∧ s4.pc = s.pc ∧
      s4.log_fetches = s.log_fetches ∧ s4.registers = s.registers ∧
      s4.data_memory = s.data_memory ∧
      s4.instruction_memory = s.instruction_memory ∧
      s4.instr_executed = s.instr_executed) ∨
    (s4.log_stalls = s.log_stalls ∧ s4.registers = s.registers ∧
      s4.data_memory = s.data_memory ∧
      s4.instruction_memory = s.instruction_memory ∧
      s4.instr_executed = s.instr_executed ∧
      ((s4.pc = s.pc + 1 ∧ s.pc < s.instruction_memory.length ∧
          s4.log_fetches = s.log_fetches + 1) ∨
        (s4.pc = s.pc ∧ s4.log_fetches = s.log_fetches))) := by
  unfold decode_fetch at h
  split at h
  · simp only [Option.bind_eq_some] at h
    obtain ⟨i, hi, h2⟩ := h
    split at h2
    · cases h2
      left; simp
    · cases h2
      right
      unfold fetch_stage
      split
      · rename_i hpc
        exact ⟨rfl, rfl, rfl, rfl, rfl, Or.inl ⟨rfl, by simpa using hpc, rfl⟩⟩
      · exact ⟨rfl, rfl, rfl, rfl, rfl, Or.inr ⟨rfl, rfl⟩⟩
  · cases h
    right
    unfold fetch_stage
    split
    · rename_i hpc
      exact ⟨rfl, rfl, rfl, rfl, rfl, Or.inl ⟨rfl, by simpa using hpc, rfl⟩⟩
    · exact ⟨rfl, rfl, rfl, rfl, rfl, Or.inr ⟨rfl, rfl⟩⟩

/-- Relate a successful `pipeline_step` to the state its Decode step runs
on: everything before Decode preserves the instruction memory, the program
counter, the `IF_ID` latch, the retired counter, and the log counters. -/
lemma pipeline_step_to_decode (s s' : SimState) (h : pipeline_step s = some s') :
    ∃ s3, decode_fetch s3 = some s' ∧
      s3.instruction_memory = s.instruction_memory ∧ s3.pc = s.pc ∧
      s3.IF_ID = s.IF_ID ∧ s3.log_stalls = s.log_stalls ∧
      s3.log_fetches = s.log_fetches := by
  obtain ⟨s1, s2, s3, h1, h2, h3, h4⟩ := pipeline_step_decomp s s' h
  obtain ⟨-, hw_im, hw_pc, -, hw_if, -, -, -, hw_ls, hw_lf⟩ := wb_stage_frame _ _ h1
  obtain ⟨-, hm_im, hm_pc, -, hm_if, -, -, hm_ls, hm_lf⟩ := mem_stage_frame _ _ h2
  obtain ⟨-, -, he_im, he_pc, -, he_if, -, -, he_ls, he_lf⟩ := ex_stage_frame _ _ h3
  dsimp only at hw_im hw_pc hw_if hw_ls hw_lf
  exact ⟨s3, h4, by rw [he_im, hm_im, hw_im], by rw [he_pc, hm_pc, hw_pc],
    by rw [he_if, hm_if, hw_if], by rw [he_ls, hm_ls, hw_ls],
    by rw [he_lf, hm_lf, hw_lf]⟩

/-- A successful `pipeline_step` never changes the instruction memory, and
advances the program counter and the fetch count together exactly when a
fetch is performed (which requires the counter to be in range). -/
lemma pipeline_step_pc (s s' : SimState) (h : pipeline_step s = some s') :
    s'.instruction_memory = s.instruction_memory ∧
    ((s'.pc = s.pc + 1 ∧ s.pc < s.instruction_memory.length ∧
        s'.log_fetches = s.log_fetches + 1) ∨
      (s'.pc = s.pc ∧ s'.log_fetches = s.log_fetches)) := by
  obtain ⟨s3, h4, him, hpc, hif, hls, hlf⟩ := pipeline_step_to_decode s s' h
  rcases decode_fetch_cases _ _ h4 with
    ⟨-, -, -, -, -, hd_pc, hd_lf, -, -, hd_im, -⟩ |
    ⟨-, -, -, hd_im, -, hd⟩
  · refine ⟨by rw [hd_im, him], Or.inr ⟨by rw [hd_pc, hpc], by rw [hd_lf, hlf]⟩⟩
  · refine ⟨by rw [hd_im, him], ?_⟩
    rcases hd with ⟨hd_pc, hd_lt, hd_lf⟩ | ⟨hd_pc, hd_lf⟩
    · left
      refine ⟨by rw [hd_pc, hpc], ?_, by rw [hd_lf, hlf]⟩
      rw [hpc, him] at hd_lt
      exact hd_lt
    · exact Or.inr ⟨by rw [hd_pc, hpc], by rw [hd_lf, hlf]⟩

/-- The retired-instruction counter of a successful `pipeline_step`
increments by one exactly when `MEM_WB` held a non-`nop` record at the start
of the call, and never changes otherwise. -/
lemma pipeline_step_executed (s s' : SimState) (h : pipeline_step s = some s') :
    (s'.instr_executed = s.instr_executed + 1 ↔
      ∃ r, s.MEM_WB = some r ∧ r.opcode ≠ "nop") ∧
    (s'.instr_executed = s.instr_executed ∨
      s'.instr_executed = s.instr_executed + 1) := by
  obtain ⟨s1, s2, s3, h1, h2, h3, h4⟩ := pipeline_step_decomp s s' h
  have hwb := wb_stage_executed _ _ h1
  dsimp only at hwb
  obtain ⟨-, -, -, -, -, -, hm_ie, -, -⟩ := mem_stage_frame _ _ h2
  obtain ⟨-, -, -, -, -, -, -, he_ie, -, -⟩ := ex_stage_frame _ _ h3
  have hd_ie : s'.instr_executed = s3.instr_executed := by
    rcases decode_fetch_cases _ _ h4 with ⟨-, -, -, -, -, -, -, -, -, -, hie⟩ | ⟨-, -, -, -, hie, -⟩
    · exact hie
    · exact hie
  rw [hd_ie, he_ie, hm_ie]
  exact hwb

/-- On a cycle whose log gained a stall line, the three downstream latches
were cleared and neither `IF_ID`, the program counter, nor the fetch count
changed. -/
lemma pipeline_step_stall (s s' : SimState) (h : pipeline_step s = some s')
    (hst : s'.log_stalls = s.log_stalls + 1) :
    s'.ID_EX = none ∧ s'.EX_MEM = none ∧ s'.MEM_WB = none ∧
    s'.IF_ID = s.IF_ID ∧ s'.pc = s.pc ∧ s'.log_fetches = s.log_fetches := by
  obtain ⟨s3, h4, him, hpc, hif, hls, hlf⟩ := pipeline_step_to_decode s s' h
  rcases decode_fetch_cases _ _ h4 with
    ⟨-, hid, hex, hmw, hif4, hpc4, hlf4, -, -, -, -⟩ |
    ⟨hls4, -, -, -, -, -⟩
  · exact ⟨hid, hex, hmw, by rw [hif4, hif], by rw [hpc4, hpc], by rw [hlf4, hlf]⟩
  · exfalso
    rw [hls4, hls] at hst
    omega

/-- Running a sum of steps is running the two summands in sequence. -/
lemma runSteps_add (a b : Nat) (s : SimState) :
    runSteps (a + b) s = (runSteps a s).bind (runSteps b) := by
  induction a generalizing s with
  | zero => simp [runSteps]
  | succ a ih =>
    rw [Nat.succ_add]
    simp only [runSteps, Option.bind_assoc]
    cases pipeline_step s with
    | none => simp
    | some t => simp [ih t]

/-- Any property preserved by single successful steps is preserved by any
number of them. -/
lemma runSteps_preserve (P : SimState → Prop)
    (hP : ∀ s s', P s → pipeline_step s = some s' → P s') :
    ∀ (n : Nat) (s s' : SimState), P s → runSteps n s = some s' → P s' := by
  intro n
  induction n with
  | zero =>
    intro s s' hs h
    cases h
    exact hs
  | succ n ih =>
    intro s s' hs h
    simp only [runSteps, Option.bind_eq_some] at h
    obtain ⟨t, ht, hrest⟩ := h
    exact ih t s' (hP s t hs ht) hrest

/-- Transfer a property checked on the concretely computed value of a run to
any state the run is said to produce. -/
lemma runSteps_some_elim (n : Nat) (s0 v : SimState)
    (hv : runSteps n s0 = some v) (P : SimState → Prop) (hP : P v) :
    ∀ x, runSteps n s0 = some x → P x := by
  intro x hx
  rw [hv] at hx
  cases hx
  exact hP

/-- A drained pipeline (all latches empty, program counter past the end) only
advances its cycle counter. -/
lemma idle_step (s : SimState) (hIF : s.IF_ID = none) (hID : s.ID_EX = none)
    (hEX : s.EX_MEM = none) (hMW : s.MEM_WB = none)
    (hpc : ¬ s.pc < s.instruction_memory.length) :
    pipeline_step s = some { s with cycle := s.cycle + 1 } := by
  obtain ⟨regs, dm, im, pc, cyc, ie, ifid, idex, exm, mwb, ls, lf⟩ := s
  simp only at hIF hID hEX hMW hpc
  subst hIF hID hEX hMW
  simp [pipeline_step, wb_stage, mem_stage, ex_stage, decode_fetch, fetch_stage,
    truthy, hpc]

/-- Iterating from a drained pipeline succeeds and leaves every field except
the cycle counter unchanged. -/
lemma idle_iter (m : Nat) :
    ∀ (s : SimState), s.IF_ID = none → s.ID_EX = none → s.EX_MEM = none →
      s.MEM_WB = none → ¬ s.pc < s.instruction_memory.length →
      ∃ s', runSteps m s = some s' ∧ s'.registers = s.registers ∧
        s'.data_memory = s.data_memory ∧ s'.instr_executed = s.instr_executed ∧
        s'.IF_ID = none ∧ s'.ID_EX = none ∧ s'.EX_MEM = none ∧
        s'.MEM_WB = none ∧ s'.pc = s.pc ∧
        s'.instruction_memory = s.instruction_memory ∧
        s'.log_stalls = s.log_stalls ∧ s'.log_fetches = s.log_fetches := by
  induction m with
  | zero =>
    intro s h1 h2 h3 h4 h5
    exact ⟨s, rfl, rfl, rfl, rfl, h1, h2, h3, h4, rfl, rfl, rfl, rfl⟩
  | succ m ih =>
    intro s h1 h2 h3 h4 h5
    have hstep := idle_step s h1 h2 h3 h4 h5
    obtain ⟨s', hrun, hprops⟩ := ih { s with cycle := s.cycle + 1 } h1 h2 h3 h4 h5
    refine ⟨s', ?_, hprops⟩
    simp only [runSteps, hstep, Option.some_bind]
    exact hrun

/-- `detect_forwarding_sources` treats its two operands independently. -/
lemma detect_forwarding_sources_eq (i : Instr) (exm mwb : Option Instr) :
    detect_forwarding_sources i exm mwb =
      (selectSource i.rs exm mwb, selectSource i.rt exm mwb) := by
  unfold detect_forwarding_sources selectSource
  rcases exm with _ | r1 <;> rcases mwb with _ | r2
  · rfl
  · rcases hrd2 : r2.rd with _ | d2
    · simp [hrd2]
    · simp only [hrd2]
      split_ifs <;> simp_all
  · rcases hrd1 : r1.rd with _ | d1
    · simp [hrd1]
    · simp only [hrd1]
      split_ifs <;> simp_all
  · rcases hrd1 : r1.rd with _ | d1 <;> rcases hrd2 : r2.rd with _ | d2 <;>
      simp only [hrd1, hrd2] <;> split_ifs <;> simp_all

/-- Characterize the per-operand selection: EX/MEM wins when it qualifies,
MEM/WB only when EX/MEM does not, and the register file when neither does. -/
lemma selectSource_spec (src : Option Int) (exm mwb : Option Instr) :
    (selectSource src exm mwb = Fwd.EX ↔ latchQualifies exm src) ∧
    (selectSource src exm mwb = Fwd.MEM ↔
      (¬ latchQualifies exm src ∧ latchQualifies mwb src)) ∧
    (selectSource src exm mwb = Fwd.REG ↔
      (¬ latchQualifies exm src ∧ ¬ latchQualifies mwb src)) := by
  unfold selectSource latchQualifies
  rcases exm with _ | r1 <;> rcases mwb with _ | r2
  · simp
  · rcases hrd2 : r2.rd with _ | d2
    · simp [hrd2]
    · simp only [hrd2]
      split_ifs <;> simp_all
  · rcases hrd1 : r1.rd with _ | d1
    · simp [hrd1]
    · simp only [hrd1]
      split_ifs <;> simp_all
  · rcases hrd1 : r1.rd with _ | d1 <;> rcases hrd2 : r2.rd with _ | d2 <;>
      simp only [hrd1, hrd2] <;>
      first
      | (split_ifs <;> simp_all <;> omega)
      | simp_all

/-- With the two latches holding the same contents, the forwarding unit
never answers MEM for either operand: the EX/MEM check already caught every
qualifying case. -/
lemma detect_no_MEM_of_eq (i : Instr) (l : Option Instr) :
    (detect_forwarding_sources i l l).1 ≠ Fwd.MEM ∧
    (detect_forwarding_sources i l l).2 ≠ Fwd.MEM := by
  rw [detect_forwarding_sources_eq]
  dsimp only
  constructor
  · intro h
    obtain ⟨-, h2, -⟩ := selectSource_spec i.rs l l
    obtain ⟨hnq, hq⟩ := h2.mp h
    exact hnq hq
  · intro h
    obtain ⟨-, h2, -⟩ := selectSource_spec i.rt l l
    obtain ⟨hnq, hq⟩ := h2.mp h
    exact hnq hq

/-- The unrecognized line of `fooProg` flows through the pipeline as a
No-operation record and never mutates registers or data memory. -/
lemma fooProg_never_mutates (n : Nat) (s' : SimState)
    (hrun : runSteps n (initState fooProg) = some s') :
    s'.registers = List.replicate 32 0 ∧
    s'.data_memory = List.replicate 1024 0 := by
  rcases Nat.lt_or_ge n 5 with hlt | hge
  · interval_cases n
    · exact runSteps_some_elim 0 (initState fooProg)
        ((runSteps 0 (initState fooProg)).getD (initState fooProg))
        (by decide)
        (fun t => t.registers = List.replicate 32 0 ∧
          t.data_memory = List.replicate 1024 0) (by decide) s' hrun
    · exact runSteps_some_elim 1 (initState fooProg)
        ((runSteps 1 (initState fooProg)).getD (initState fooProg))
        (by decide)
        (fun t => t.registers = List.replicate 32 0 ∧
          t.data_memory = List.replicate 1024 0) (by decide) s' hrun
    · exact runSteps_some_elim 2 (initState fooProg)
        ((runSteps 2 (initState fooProg)).getD (initState fooProg))
        (by decide)
        (fun t => t.registers = List.replicate 32 0 ∧
          t.data_memory = List.replicate 1024 0) (by decide) s' hrun
    · exact runSteps_some_elim 3 (initState fooProg)
        ((runSteps 3 (initState fooProg)).getD (initState fooProg))
        (by decide)
        (fun t => t.registers = List.replicate 32 0 ∧
          t.data_memory = List.replicate 1024 0) (by decide) s' hrun
    · exact runSteps_some_elim 4 (initState fooProg)
        ((runSteps 4 (initState fooProg)).getD (initState fooProg))
        (by decide)
        (fun t => t.registers = List.replicate 32 0 ∧
          t.data_memory = List.replicate 1024 0) (by decide) s' hrun
  · obtain ⟨m, rfl⟩ : ∃ m, n = 5 + m := ⟨n - 5, by omega⟩
    rw [runSteps_add] at hrun
    rw [show runSteps 5 (initState fooProg) = some fooS5 from by decide] at hrun
    simp only [Option.some_bind] at hrun
    obtain ⟨t, hrun2, hregs, hdm, -, -, -, -, -, -, -, -, -⟩ :=
      idle_iter m fooS5 (by decide) (by decide) (by decide) (by decide)
        (by decide)
    rw [hrun2] at hrun
    cases hrun
    exact ⟨by rw [hregs]; decide, by rw [hdm]; decide⟩

/-- C7: On every stall cycle `pipeline_step` clears the ID/EX, EX/MEM and
MEM/WB latches, leaves the IF/ID latch and the program counter unchanged and
performs no fetch; and for any program the number of instructions ever
fetched (`log_fetches`) and the program counter never exceed the program
length. -/
theorem claim7_stall_frame_and_fetch_bound (prog : List String) (n : Nat)
    (s s' : SimState) (hrun : runSteps n (initState prog) = some s)
    (hstep : pipeline_step s = some s') :
    (s'.log_stalls = s.log_stalls + 1 →
      s'.ID_EX = none ∧ s'.EX_MEM = none ∧ s'.MEM_WB = none ∧
      s'.IF_ID = s.IF_ID ∧ s'.pc = s.pc ∧ s'.log_fetches = s.log_fetches) ∧
    s'.log_fetches ≤ prog.length ∧ s'.pc ≤ prog.length := by
  have hP : ∀ t t' : SimState,
      (t.instruction_memory = prog ∧ t.log_fetches = t.pc ∧ t.pc ≤ prog.length) →
      pipeline_step t = some t' →
      (t'.instruction_memory = prog ∧ t'.log_fetches = t'.pc ∧
        t'.pc ≤ prog.length) := by
    intro t t' ht hstep
    obtain ⟨him, hlock⟩ := pipeline_step_pc t t' hstep
    refine ⟨by rw [him, ht.1], ?_, ?_⟩
    · rcases hlock with ⟨hpc, -, hlf⟩ | ⟨hpc, hlf⟩
      · rw [hpc, hlf, ht.2.1]
      · rw [hpc, hlf, ht.2.1]
    · rcases hlock with ⟨hpc, hlt, -⟩ | ⟨hpc, -⟩
      · rw [ht.1] at hlt
        omega
      · rw [hpc]
        exact ht.2.2
  have h0 : (initState prog).instruction_memory = prog ∧
      (initState prog).log_fetches = (initState prog).pc ∧
      (initState prog).pc ≤ prog.length := by
    refine ⟨rfl, rfl, ?_⟩
    exact Nat.zero_le _
  have hs := runSteps_preserve _ hP n _ s h0 hrun
  have hs' := hP s s' hs hstep
  exact ⟨fun hst => pipeline_step_stall s s' hstep hst,
    by rw [hs'.2.1]; exact hs'.2.2, hs'.2.2⟩

/-- Witness for C7 at the concrete stalling program `c7prog`. -/
theorem claim7_witness :
    (c7t.ID_EX = none ∧ c7t.EX_MEM = none ∧ c7t.MEM_WB = none ∧
      c7t.IF_ID = c7s.IF_ID ∧ c7t.pc = c7s.pc ∧
      c7t.log_fetches = c7s.log_fetches) ∧
    c7t.log_fetches ≤ c7prog.length ∧ c7t.pc ≤ c7prog.length := by
  have h := claim7_stall_frame_and_fetch_bound c7prog 2 c7s c7t (by decide) (by decide)
  exact ⟨h.1 (by decide), h.2⟩

/-- C8: the retired-instruction counter increments by exactly one in a
`pipeline_step` call iff the MEM/WB latch held a non-no-operation record at
the start of the call (store records, which carry no destination register,
included); otherwise it is unchanged, so it is non-decreasing and gains at
most one per cycle. -/
theorem claim8_retirement (s s' : SimState) (h : pipeline_step s = some s') :
    (s'.instr_executed = s.instr_executed + 1 ↔
      ∃ r, s.MEM_WB = some r ∧ r.opcode ≠ "nop") ∧
    (s'.instr_executed = s.instr_executed ∨
      s'.instr_executed = s.instr_executed + 1) :=
  pipeline_step_executed s s' h

/-- Witness for C8 at the concrete retiring cycle of `c8prog`. -/
theorem claim8_witness :
    (c8t.instr_executed = c8s.instr_executed + 1 ↔
      ∃ r, c8s.MEM_WB = some r ∧ r.opcode ≠ "nop") ∧
    (c8t.instr_executed = c8s.instr_executed ∨
      c8t.instr_executed = c8s.instr_executed + 1) :=
  claim8_retirement c8s c8t (by decide)

/-- C3: after 20 (and any number at least 20) cycles on the reference
program, register 1 = 5, register 2 = 10, register 3 = 15, register 4 = 15,
data-memory word 0 = 15, and the retired-instruction count is 5. -/
theorem claim3_reference_program (n : Nat) (h : 20 ≤ n) :
    ∃ s, runSteps n (initState refProg) = some s ∧
      s.registers.getD 1 0 = 5 ∧ s.registers.getD 2 0 = 10 ∧
      s.registers.getD 3 0 = 15 ∧ s.registers.getD 4 0 = 15 ∧
      s.data_memory.getD 0 0 = 15 ∧ s.instr_executed = 5 := by
  obtain ⟨m, rfl⟩ : ∃ m, n = 20 + m := ⟨n - 20, by omega⟩
  rw [runSteps_add]
  rw [show runSteps 20 (initState refProg) = some s20ref from by decide]
  simp only [Option.some_bind]
  obtain ⟨s', hrun, hregs, hdm, hie, -, -, -, -, -, -, -, -⟩ :=
    idle_iter m s20ref (by decide) (by decide) (by decide) (by decide) (by decide)
  refine ⟨s', hrun, ?_, ?_, ?_, ?_, ?_, ?_⟩
  · rw [hregs]; decide
  · rw [hregs]; decide
  · rw [hregs]; decide
  · rw [hregs]; decide
  · rw [hdm]; decide
  · rw [hie]; decide

/-- Witness for C3 at exactly 20 cycles. -/
theorem claim3_witness :
    ∃ s, runSteps 20 (initState refProg) = some s ∧
      s.registers.getD 1 0 = 5 ∧ s.registers.getD 2 0 = 10 ∧
      s.registers.getD 3 0 = 15 ∧ s.registers.getD 4 0 = 15 ∧
      s.data_memory.getD 0 0 = 15 ∧ s.instr_executed = 5 :=
  claim3_reference_program 20 (by decide)

/-- C1 (evidence of the code bug): running `c1prog`, exactly one stall is
logged and memory word 0 holds 42, yet the stall cleared the EX/MEM and
MEM/WB latches — squashing the in-flight `lw` — so register 2 stays 0 and
the dependent `add` computes 0, not the loaded 42 (its result would be 84
had it observed the loaded value). -/
theorem claim1_load_squashed_by_stall :
    (runSteps 12 (initState c1prog)).map
        (fun s => (s.log_stalls, s.data_memory.getD 0 0,
          s.registers.getD 2 0, s.registers.getD 3 0)) =
      some (1, 42, 0, 0) := by decide

/-- C5 (evidence of the same code bug): the producing `lw`'s value is 42
(register 1 holds 42, memory word 0 holds 42), but the distance-1 consumer
`add $3, $2, $2` computed with the stale register-file value 0, writing 0 to
register 3 instead of 84. -/
theorem claim5_consumer_reads_stale_value :
    (runSteps 12 (initState c1prog)).map
        (fun s => (s.registers.getD 1 0, s.data_memory.getD 0 0,
          s.registers.getD 3 0)) =
      some (42, 42, 0) := by decide

/-- C2 (evidence of the code bug): the Write-Back step executes
`registers[rd] = result` also for `rd = 0`, so after the `addi $0, $0, 5`
retires, register 0 holds 5 — it does not stay 0. -/
theorem claim2_register_zero_overwritten :
    (runSteps 5 (initState c2prog)).map (fun s => s.registers.getD 0 0) =
      some 5 := by decide

/-- C4 counterexample: on a load whose destination is register 0 read by the
decoded instruction, `detect_load_use_hazard` returns true although the
claim's condition (destination defined and non-zero) is false — the code
performs no non-zero check. -/
theorem claim4_counterexample :
    detect_load_use_hazard c4id (some c4ex) = true ∧
    ¬ loadUseHazardClaim c4id (some c4ex) := by
  constructor
  · decide
  · rintro ⟨e, rt, he, -, hrt, hnz, -⟩
    obtain rfl : c4ex = e := by injection he
    rw [show c4ex.rt = some 0 from rfl] at hrt
    obtain rfl : (0 : Int) = rt := by injection hrt
    exact hnz rfl

/-- C4 amended: `detect_load_use_hazard` returns true iff the Execute-stage
record is a load whose `rt` is defined (zero allowed) and read by the
decoded instruction as `rs` or `rt`. -/
theorem claim4_amended (i : Instr) (e : Option Instr) :
    detect_load_use_hazard i e = true ↔ loadUseHazardCode i e := by
  unfold detect_load_use_hazard loadUseHazardCode
  cases e with
  | none => simp
  | some ex =>
    by_cases hop : ex.opcode = "lw"
    · cases hrt : ex.rt with
      | none => simp [hop, hrt]
      | some rt => simp [hop, hrt]
    · simp [hop]

/-- C6: per source operand, `detect_forwarding_sources` answers EX exactly
when the EX/MEM latch qualifies, MEM exactly when EX/MEM does not qualify
but MEM/WB does, and REG exactly when neither qualifies — where a latch
qualifies only if it holds a record whose destination register is defined,
non-zero, and equal to the operand's register index. -/
theorem claim6_forwarding_selection (i : Instr) (exm mwb : Option Instr) :
    ((detect_forwarding_sources i exm mwb).1 = Fwd.EX ↔
      latchQualifies exm i.rs) ∧
    ((detect_forwarding_sources i exm mwb).1 = Fwd.MEM ↔
      (¬ latchQualifies exm i.rs ∧ latchQualifies mwb i.rs)) ∧
    ((detect_forwarding_sources i exm mwb).1 = Fwd.REG ↔
      (¬ latchQualifies exm i.rs ∧ ¬ latchQualifies mwb i.rs)) ∧
    ((detect_forwarding_sources i exm mwb).2 = Fwd.EX ↔
      latchQualifies exm i.rt) ∧
    ((detect_forwarding_sources i exm mwb).2 = Fwd.MEM ↔
      (¬ latchQualifies exm i.rt ∧ latchQualifies mwb i.rt)) ∧
    ((detect_forwarding_sources i exm mwb).2 = Fwd.REG ↔
      (¬ latchQualifies exm i.rt ∧ ¬ latchQualifies mwb i.rt)) := by
  rw [detect_forwarding_sources_eq]
  dsimp only
  obtain ⟨hA1, hA2, hA3⟩ := selectSource_spec i.rs exm mwb
  obtain ⟨hB1, hB2, hB3⟩ := selectSource_spec i.rt exm mwb
  exact ⟨hA1, hA2, hA3, hB1, hB2, hB3⟩

/-- C10: inside `pipeline_step`, at the moment the Execute stage calls
`detect_forwarding_sources` (that is, after Write-Back and Memory have run),
the EX/MEM and MEM/WB latches hold the same record or are both empty, so the
forwarding answer for either operand is never MEM. -/
theorem claim10_no_mem_forwarding (s s1 s2 : SimState) (i : Instr)
    (h1 : wb_stage s = some s1) (h2 : mem_stage s1 = some s2) :
    s2.EX_MEM = s2.MEM_WB ∧
    (detect_forwarding_sources i s2.EX_MEM s2.MEM_WB).1 ≠ Fwd.MEM ∧
    (detect_forwarding_sources i s2.EX_MEM s2.MEM_WB).2 ≠ Fwd.MEM := by
  have heq := mem_stage_latch_eq s1 s2 h2
  refine ⟨heq, ?_⟩
  rw [heq]
  exact detect_no_MEM_of_eq i s2.MEM_WB

/-- Witness for C10 on the reference program's fifth cycle. -/
theorem claim10_witness :
    c10s2.EX_MEM = c10s2.MEM_WB ∧
    (detect_forwarding_sources c10i c10s2.EX_MEM c10s2.MEM_WB).1 ≠ Fwd.MEM ∧
    (detect_forwarding_sources c10i c10s2.EX_MEM c10s2.MEM_WB).2 ≠ Fwd.MEM :=
  claim10_no_mem_forwarding c10s c10s1 c10s2 c10i (by decide) (by decide)

/-- C9 counterexample: `"add 15, $2, $3"` has a recognized mnemonic and a
malformed register operand (the token `15` has no `$` sigil), yet
`parse_instruction` does not raise: it silently strips the first character
and returns a record with destination register 5. -/
theorem claim9_counterexample :
    parse_instruction "add 15, $2, $3" =
      some { opcode := "add", rd := some 5, rs := some 2, rt := some 3 } := by
  decide

/-- C9 amended: a blank line or an unrecognized first token decodes to
No-operation without raising; a recognized mnemonic with missing operand
tokens raises; but a malformed register token is not guaranteed to raise
(see `claim9_counterexample`); and the unrecognized line of `fooProg` never
mutates registers or data memory. -/
theorem claim9_amended (line : String) (t0 : List Char)
    (rest : List (List Char)) (n : Nat) (s' : SimState) :
    (parseTokens line = [] → parse_instruction line = some NOP) ∧
    (parseTokens line = t0 :: rest →
      String.mk (t0.map Char.toLower) ∉ mnemonicsR ++ mnemonicsI ++ mnemonicsM →
      parse_instruction line = some NOP) ∧
    (parseTokens line = t0 :: rest →
      (String.mk (t0.map Char.toLower) ∈ mnemonicsR ∨
        String.mk (t0.map Char.toLower) ∈ mnemonicsI) →
      rest.length < 3 → parse_instruction line = none) ∧
    (parseTokens line = t0 :: rest →
      String.mk (t0.map Char.toLower) ∈ mnemonicsM →
      rest.length < 2 → parse_instruction line = none) ∧
    (runSteps n (initState fooProg) = some s' →
      s'.registers = List.replicate 32 0 ∧
      s'.data_memory = List.replicate 1024 0) := by
  refine ⟨?_, ?_, ?_, ?_, ?_⟩
  · intro h
    simp [parse_instruction, h]
  · intro h hm
    simp only [List.mem_append, not_or] at hm
    simp [parse_instruction, h, hm.1.1, hm.1.2, hm.2]
  · intro h hm hlen
    rcases hm with hR | hI
    · rcases rest with _ | ⟨a, _ | ⟨b, _ | ⟨c, r⟩⟩⟩
      · simp [parse_instruction, h, hR]
      · simp [parse_instruction, h, hR]
      · simp [parse_instruction, h, hR]
      · exfalso
        simp only [List.length_cons] at hlen
        omega
    · have hI2 : String.mk (t0.map Char.toLower) = "addi" ∨
          String.mk (t0.map Char.toLower) = "slti" := by
        simpa [mnemonicsI] using hI
      have hR2 : String.mk (t0.map Char.toLower) ∉ mnemonicsR := by
        rcases hI2 with h2 | h2 <;> rw [h2] <;> decide
      rcases rest with _ | ⟨a, _ | ⟨b, _ | ⟨c, r⟩⟩⟩
      · simp [parse_instruction, h, hR2, hI]
      · simp [parse_instruction, h, hR2, hI]
      · simp [parse_instruction, h, hR2, hI]
      · exfalso
        simp only [List.length_cons] at hlen
        omega
  · intro h hM hlen
    have hM2 : String.mk (t0.map Char.toLower) = "lw" ∨
        String.mk (t0.map Char.toLower) = "sw" := by
      simpa [mnemonicsM] using hM
    have hR2 : String.mk (t0.map Char.toLower) ∉ mnemonicsR := by
      rcases hM2 with h2 | h2 <;> rw [h2] <;> decide
    have hI2 : String.mk (t0.map Char.toLower) ∉ mnemonicsI := by
      rcases hM2 with h2 | h2 <;> rw [h2] <;> decide
    rcases rest with _ | ⟨a, _ | ⟨b, r⟩⟩
    · simp [parse_instruction, h, hR2, hI2, hM]
    · simp [parse_instruction, h, hR2, hI2, hM]
    · exfalso
      simp only [List.length_cons] at hlen
      omega
  · exact fooProg_never_mutates n s'

/-- Witness for C9 at concrete lines and a concrete run of `fooProg`. -/
theorem claim9_witness :
    parse_instruction "" = some NOP ∧
    parse_instruction "foo $1, $2, $3" = some NOP ∧
    parse_instruction "add $1, $2" = none ∧
    parse_instruction "lw $4" = none ∧
    (((runSteps 3 (initState fooProg)).getD (initState fooProg)).registers =
        List.replicate 32 0 ∧
      ((runSteps 3 (initState fooProg)).getD (initState fooProg)).data_memory =
        List.replicate 1024 0) := by
  refine ⟨?_, ?_, ?_, ?_, ?_⟩
  · exact (claim9_amended "" [] [] 0 (initState fooProg)).1 (by decide)
  · exact (claim9_amended "foo $1, $2, $3" "foo".data
      ["$1".data, "$2".data, "$3".data] 0 (initState fooProg)).2.1
      (by decide) (by decide)
  · exact (claim9_amended "add $1, $2" "add".data ["$1".data, "$2".data] 0
      (initState fooProg)).2.2.1 (by decide) (Or.inl (by decide)) (by decide)
  · exact (claim9_amended "lw $4" "lw".data ["$4".data] 0
      (initState fooProg)).2.2.2.1 (by decide) (by decide) (by decide)
  · exact (claim9_amended "" [] [] 3
      ((runSteps 3 (initState fooProg)).getD (initState fooProg))).2.2.2.2
      (by decide)
